import Mathlib

/-!
Verification of the affiliation-resolution engine of `automate_hal`
(`scripts/AutomateHal.py`, class `SearchAffilFromHal` and `AutomateHal.reqHal`).

Python strings are modelled as `List Char`; a pandas `NaN` / absent value is
`Option.none`.  External collaborators (the `unidecode` library, the HAL HTTP
client `requests`, `pycountry`) are modelled as oracle parameters.  A pandas
`DataFrame` of candidate affiliations is a list of rows together with
column-presence flags (a column exists in the frame iff at least one of the
source documents carried the field, and it survives row filtering).
-/

/-- Python `str.lower()` (ASCII behaviour). -/
def pyLower (s : List Char) : List Char := s.map Char.toLower

/-- Python whitespace class `\s` (ASCII part). -/
def isWS (c : Char) : Bool :=
  c = ' ' || c = '\t' || c = '\n' || c = '\r' || c = '\x0b' || c = '\x0c'

/-- Python `str.split()` with no argument: maximal runs of non-whitespace. -/
def pyWords (s : List Char) : List (List Char) :=
  (s.splitOnP isWS).filter (· ≠ [])

/-- Python `str.split(', ')`: split on the two-character separator, leftmost
occurrence first, keeping empty pieces.  `pySplit [] = [[]]` just as
`''.split(', ') == ['']` in Python. -/
def pySplit : List Char → List (List Char)
  | [] => [[]]
  | [c] => [[c]]
  | c :: d :: rest =>
    if c = ',' ∧ d = ' ' then [] :: pySplit rest
    else
      match pySplit (d :: rest) with
      | [] => [[c]]
      | t :: ts => (c :: t) :: ts

/-- `SearchAffilFromHal.update_auths_fields_affil_from_hal`, inner
`update_affil_id_field` (AutomateHal.py lines 1788-1796): on the comma-joined
field, set it when empty, append `', ' + value` when the value is not yet among
the `', '`-separated entries, and leave the field alone otherwise. -/
def update_affil_id_field (existing v : List Char) : List Char :=
  if existing = [] then v
  else if v ∈ pySplit existing then existing
  else existing ++ (',' :: ' ' :: v)

/-- A single `', '`-free token: a string that splits to itself. -/
abbrev singleToken (v : List Char) : Prop := pySplit v = [v]

/-! ## The external HAL client: `AutomateHal.reqHal` (lines 395-408)

`reqHal` runs

`while not found: req = requests.get(req); try: fromHal = req.json();
found = True; except: pass`

The rebinding `req = requests.get(req)` means only the first iteration passes
the URL string: afterwards `req` is the previous iteration's `Response`
object, and that object — not the URL — is what the next `requests.get`
receives.  The `requests.get` call sits outside the `try`, so an exception it
raises propagates out of `reqHal` uncaught; the bare `except` only covers
`req.json()`. -/

/-- A `Response` as the loop observes it: the outcome of `.json()` —
`some (numFound, docs)` when the body parses, `none` when `.json()` raises. -/
abbrev HalResponse := Option (Nat × List (List Char))

/-- What `reqHal` passes to `requests.get`: the URL (built from the query) on
the first iteration, the previous `Response` object on every later one. -/
inductive ReqArg where
  | url (u : List Char)
  | response (r : HalResponse)
deriving DecidableEq, Repr

/-- How one run of `reqHal` ends: a returned `[numFound, docs]` pair, an
uncaught exception from `requests.get`, or still looping when the fuel runs
out. -/
inductive ReqHalOutcome where
  | ok (v : Nat × List (List Char))
  | exn
  | running
deriving DecidableEq, Repr

/-- The `while not found` loop of `reqHal`, fuel-indexed, with `requests.get`
as the oracle `get` (`none` models it raising, e.g. on an argument that is not
a URL).  Each iteration calls `get` on the current `req`, and on a parse
failure (`except: pass`) loops with `req` rebound to the response. -/
def reqHal_loop (get : ReqArg → Option HalResponse) :
    ReqArg → Nat → ReqHalOutcome
  | _, 0 => .running
  | arg, fuel + 1 =>
    match get arg with
    | none => .exn
    | some (some v) => .ok v
    | some none => reqHal_loop get (.response none) fuel

/-- `requests.get` behaviour at the C10 counterexample: the URL yields a
response whose body does not parse as JSON; any `Response` argument (not a
URL) makes `requests.get` raise. -/
def getRaisesOnResponse : ReqArg → Option HalResponse
  | .url _ => some none
  | .response _ => none

/-- `requests.get` behaviour at the C10 witness: the first response parses. -/
def getParsesFirst : ReqArg → Option HalResponse
  | .url _ => some (some (7, []))
  | .response _ => none

/-! ## Candidate records and DataFrames

One row of the HAL `structure` search result (the fields requested by
`search_hal_and_filter_results`: `docid,label_s,address_s,country_s,
parentName_s,parentDocid_i,parentValid_s`).  `none` models a pandas `NaN`
(the document lacked the field).  `label_s_ori` is the column added by
`prepare_df_affil_found`. -/

structure Candidate where
  docid : List Char
  label_s : List Char
  label_s_ori : List Char
  address_s : Option (List Char)
  country_s : Option (List Char)
  parentName_s : Option (List Char)
  parentDocid_i : Option (List (List Char))
  parentValid_s : Option (List (List Char))
deriving DecidableEq, Repr

/-- A pandas DataFrame of candidates: rows plus column-presence flags.  A
column is present iff at least one source document carried the field
(`'field' in df.columns`); it stays present when rows are filtered away.
`hasCleanedAddress` records the `'cleaned address_s'` column added by
`filter_by_affil_city`. -/
structure DFrame where
  rows : List Candidate
  hasAddress : Bool
  hasCountry : Bool
  hasParentName : Bool
  hasParentDocid : Bool
  hasParentValid : Bool
  hasCleanedAddress : Bool
deriving DecidableEq, Repr

/-- A candidate document carrying only an id and a label (all optional
fields absent), as used for concrete inputs. -/
def mkCand (d l : List Char) : Candidate :=
  { docid := d, label_s := l, label_s_ori := l, address_s := none,
    country_s := none, parentName_s := none, parentDocid_i := none,
    parentValid_s := none }

/-! ## `AutomateHal.preprocess_affil_name` (lines 298-343)

`unidecode` is an external library; it is passed as the oracle `uni`
(on pure-ASCII inputs it is the identity). -/

/-- Python `str.replace(old, new)`: replace every non-overlapping occurrence
left to right.  Implemented with fuel `s.length`, which suffices because each
step consumes at least one character (`old` is nonempty at every call site). -/
def pyReplaceAux (old new : List Char) : Nat → List Char → List Char
  | 0, s => s
  | _ + 1, [] => []
  | fuel + 1, c :: rest =>
    if old ≠ [] ∧ old.isPrefixOf (c :: rest) then
      new ++ pyReplaceAux old new fuel ((c :: rest).drop old.length)
    else c :: pyReplaceAux old new fuel rest

def pyReplace (s old new : List Char) : List Char := pyReplaceAux old new s.length s

/-- The literal replacement table of `preprocess_affil_name`. -/
def affilReplacements : List (List Char × List Char) :=
  [("electricite de france".toList, "edf".toList),
   ("mines paristech".toList, "mines paris - psl".toList),
   ("ecole ".toList, "".toList),
   ("randd".toList, "r d".toList),
   ("centralesupelec universite".toList, "centralesupelec, universite".toList),
   ("centralesupelec/universite".toList, "centralesupelec, universite".toList)]

/-- Python regex `\w` (ASCII part), for the `\b` boundaries below. -/
def isWordChar (c : Char) : Bool := c.isAlphanum || c = '_'

/-- `re.sub(r'\b(de |of )\b', '', s)`: remove `"de "` / `"of "` when preceded
by start-of-string or a non-word character and followed by a word character.
`prev` is the original character before the scan position; fuel is the
remaining length. -/
def subDeOfAux : Nat → Option Char → List Char → List Char
  | 0, _, s => s
  | _ + 1, _, [] => []
  | fuel + 1, prev, c :: rest =>
    let boundaryBefore : Bool :=
      match prev with
      | none => true
      | some p => ! isWordChar p
    let nextIsWord : Bool :=
      match (c :: rest).drop 3 with
      | d :: _ => isWordChar d
      | [] => false
    if boundaryBefore &&
        (("de ".toList).isPrefixOf (c :: rest) || ("of ".toList).isPrefixOf (c :: rest)) &&
        nextIsWord then
      subDeOfAux fuel (some ' ') ((c :: rest).drop 3)
    else c :: subDeOfAux fuel (some c) rest

def subDeOf (s : List Char) : List Char := subDeOfAux s.length none s

/-- `re.sub(r'\s*[&-]\s*', ' ', s)`: each leftmost run
`whitespace* (& or -) whitespace*` becomes a single space. -/
def subAmpDashAux : Nat → List Char → List Char
  | 0, s => s
  | _ + 1, [] => []
  | fuel + 1, c :: rest =>
    if c = '&' ∨ c = '-' then ' ' :: subAmpDashAux fuel (rest.dropWhile isWS)
    else if isWS c then
      match (c :: rest).dropWhile isWS with
      | d :: rest3 =>
        if d = '&' ∨ d = '-' then ' ' :: subAmpDashAux fuel (rest3.dropWhile isWS)
        else ((c :: rest).takeWhile isWS) ++ subAmpDashAux fuel (d :: rest3)
      | [] => (c :: rest).takeWhile isWS
    else c :: subAmpDashAux fuel rest

def subAmpDash (s : List Char) : List Char := subAmpDashAux s.length s

/-- `AutomateHal.preprocess_affil_name`: unidecode, lower-case, literal
replacements, remove `"de "`/`"of "` at word boundaries, collapse `&`/`-`
to a space, collapse whitespace runs via `' '.join(s.split())`. -/
def preprocess_affil_name (uni : List Char → List Char) (s : List Char) : List Char :=
  let s1 := pyLower (uni s)
  let s2 := affilReplacements.foldl (fun acc pr => pyReplace acc pr.1 pr.2) s1
  let s3 := subDeOf s2
  let s4 := subAmpDash s3
  List.intercalate (" ".toList) (pyWords s4)

/-- `clean_and_format_address` inside `filter_by_affil_city` (lines 1477-1484):
`''` for `NaN`, otherwise unidecode, keep only `[a-zA-Z0-9 ]` (others become a
space), lower-case. -/
def clean_and_format_address (uni : List Char → List Char) : Option (List Char) → List Char
  | none => []
  | some a => pyLower ((uni a).map (fun c => if c.isAlpha || c.isDigit || c = ' ' then c else ' '))

/-- `df.drop_duplicates(subset='label_s', keep='first')`. -/
def dedupByLabelAux : Nat → List Candidate → List Candidate
  | 0, l => l
  | _ + 1, [] => []
  | fuel + 1, c :: rest =>
    c :: dedupByLabelAux fuel (rest.filter (fun d => d.label_s ≠ c.label_s))

def dedupByLabel (l : List Candidate) : List Candidate := dedupByLabelAux l.length l

/-- Word count of a candidate label (`count_words` in `sort_by_name_length`). -/
def wcount (c : Candidate) : Nat := (pyWords c.label_s).length

/-- Stable insertion used to model `df.sort_values(by='word_count')`
(`sort_by_name_length`, lines 1760-1775): ascending label word count, equal
keys keeping their incoming order. -/
def insertWC (c : Candidate) : List Candidate → List Candidate
  | [] => [c]
  | d :: rest => if wcount c ≤ wcount d then c :: d :: rest else d :: insertWC c rest

def sort_by_name_length (l : List Candidate) : List Candidate := l.foldr insertWC []

/-- `SearchAffilFromHal.prepare_df_affil_found` (lines 1948-1968): build the
DataFrame from the search result docs (a column is present iff some doc has
the field), copy `label_s` to `label_s_ori`, preprocess `label_s` and the
query name, and sort by label word count. -/
def prepare_df_affil_found (uni : List Char → List Char) (docs : List Candidate)
    (affil_name : List Char) : List Char × DFrame :=
  let rows := docs.map (fun c => { c with label_s_ori := c.label_s,
                                          label_s := preprocess_affil_name uni c.label_s })
  (preprocess_affil_name uni affil_name,
   { rows := sort_by_name_length rows,
     hasAddress := docs.any (fun c => c.address_s.isSome),
     hasCountry := docs.any (fun c => c.country_s.isSome),
     hasParentName := docs.any (fun c => c.parentName_s.isSome),
     hasParentDocid := docs.any (fun c => c.parentDocid_i.isSome),
     hasParentValid := docs.any (fun c => c.parentValid_s.isSome),
     hasCleanedAddress := false })

/-! ## The candidate filter pipeline
(`SearchAffilFromHal.pick_affiliation_from_search_results` and the filter
methods it calls, lines 1463-1945). -/

/-- Python's substring test `pat in s` / `pandas.Series.str.contains(pat,
regex=False)`. -/
def pyContains (s pat : List Char) : Bool :=
  s.tails.any (fun t => pat.isPrefixOf t)

/-- `SearchAffilFromHal.find_exact_match` (lines 1644-1698).  The three ways:
exact `label_s == affil_name`; `label_s == '<name> [<city>]'` (lower-cased
pieces) when a city is given; and labels matching `r'<name> \[(.*?)\]'` whose
bracket group does not occur in the cleaned address — the last only applies
when the `'cleaned address_s'` column exists, which is never the case at the
single call site inside the pipeline.  Results are concatenated and
deduplicated on `label_s` keeping the first row. -/
def bracketMatch (nm lbl : List Char) : Option (List Char) :=
  if (nm ++ " [".toList).isPrefixOf lbl then
    let rest := lbl.drop (nm.length + 2)
    if rest.any (fun c => c = ']') then some (rest.takeWhile (fun c => c ≠ ']')) else none
  else none

def find_exact_match (uni : List Char → List Char) (df : DFrame)
    (affil_name : List Char) (affil_city : Option (List Char)) : DFrame :=
  if df.rows.isEmpty then df
  else
    let exactRows := df.rows.filter (fun c => c.label_s = affil_name)
    let cityRows :=
      match affil_city with
      | some city =>
        df.rows.filter (fun c =>
          c.label_s = pyLower affil_name ++ " [".toList ++ pyLower city ++ "]".toList)
      | none => []
    let patRows := df.rows.filter (fun c =>
      match bracketMatch (pyLower affil_name) c.label_s with
      | some g => df.hasCleanedAddress &&
          ! (pyContains (clean_and_format_address uni c.address_s) g)
      | none => false)
    { df with rows := dedupByLabel (exactRows ++ cityRows ++ patRows) }

/-- `SearchAffilFromHal.filter_by_parent_affil` (lines 1614-1641): when the
accumulator is nonempty and the parent column exists, keep the rows without
parent ids followed by the rows having a parent id in the accumulator
(`pd.concat` restores that order). -/
def filter_by_parent_affil (df : DFrame) (parent_affil_id : List (List Char)) : DFrame :=
  if df.rows.isEmpty then df
  else if parent_affil_id ≠ [] then
    if df.hasParentDocid then
      let noParent := df.rows.filter (fun c => c.parentDocid_i.isNone)
      let withParent := (df.rows.filter (fun c => c.parentDocid_i.isSome)).filter
        (fun c => (c.parentDocid_i.getD []).any (fun p => parent_affil_id.contains p))
      { df with rows := noParent ++ withParent }
    else df
  else df

/-- The cap step of `pick_affiliation_from_search_results` (lines 1864-1871):
`n_max = 30`; with more than 30 surviving candidates, truncate to the first 30
when the query name has more than 2 words, and return not-found (`none`)
otherwise. -/
def cap_step (df : DFrame) (affil_name : List Char) : Option DFrame :=
  if df.rows.length > 30 then
    if (pyWords affil_name).length > 2 then some { df with rows := df.rows.take 30 }
    else none
  else some df

/-- `SearchAffilFromHal.filter_by_acronym_pattern` (lines 1514-1532): when the
query name is a single token (per `split(' ')`), keep labels containing
`[<name>]` plus labels equal to the name, deduplicated on label. -/
def filter_by_acronym_pattern (df : DFrame) (affil_name : List Char) : DFrame :=
  if df.rows.isEmpty then df
  else if (affil_name.splitOn ' ').length = 1 then
    let r1 := df.rows.filter (fun c =>
      pyContains c.label_s (('[' :: affil_name) ++ "]".toList))
    let r2 := df.rows.filter (fun c => c.label_s = affil_name)
    { df with rows := dedupByLabel (r1 ++ r2) }
  else df

/-- `not_child` inside `SearchAffilFromHal.filter_by_university_group`
(lines 1549-1566): a row is kept unless the parent column exists, the row has
a (nonempty, non-`NaN`) parent-id list, and some other row's `docid` occurs in
it. -/
def not_child (hasParentCol : Bool) (allRows : List (Nat × Candidate))
    (i : Nat) (c : Candidate) : Bool :=
  if hasParentCol then
    match c.parentDocid_i with
    | none => true
    | some pids =>
      if pids.isEmpty then true
      else allRows.all (fun p => p.1 = i || ! (pids.contains p.2.docid))
  else true

/-- `SearchAffilFromHal.filter_by_university_group` (lines 1536-1574): keep
exactly the rows for which `not_child` holds. -/
def filter_by_university_group (df : DFrame) : DFrame :=
  if df.rows.isEmpty then df
  else
    let kept := (df.rows.enum.filter
      (fun p => not_child df.hasParentDocid df.rows.enum p.1 p.2)).map Prod.snd
    { df with rows := kept }

/-- `SearchAffilFromHal.filter_by_prev_publications` (lines 1577-1597): the
external lookup `reqHal('structId_i:<docid>&fq=auth_t:"<author>"')` is the
oracle `prevPub` (whether the count is positive).  When some surviving
candidate has a prior publication by the author, return the first such row. -/
def filter_by_prev_publications (prevPub : List Char → Bool) (df : DFrame) :
    Option Candidate :=
  if df.rows.isEmpty then none
  else
    match df.rows.filter (fun c => prevPub c.docid) with
    | [] => none
    | c :: _ => some c

/-- `SearchAffilFromHal.filter_by_country` (lines 1600-1612): rows without a
country field followed by rows whose country equals the query country. -/
def filter_by_country (df : DFrame) (affil_country : List Char) : DFrame :=
  if df.rows.isEmpty then df
  else if df.hasCountry then
    let noCountry := df.rows.filter (fun c => c.country_s.isNone)
    let matching := (df.rows.filter (fun c => c.country_s.isSome)).filter
      (fun c => c.country_s = some affil_country)
    { df with rows := noCountry ++ matching }
  else df

/-- `SearchAffilFromHal.filter_by_affil_city` (lines 1463-1511).  When the
address column exists, keep rows whose label contains `[<cleaned city>]`
(condition 1), whose cleaned address contains the cleaned city (condition 2),
whose address is `NaN` (condition 3, skipped with `exact_filter`), or whose
label contains `[system]` (condition 4); the filter also adds the
`'cleaned address_s'` column.  When the address column does not exist the
result is `pd.DataFrame()`: no rows and no columns. -/
def city_filter_keeps (uni : List Char → List Char) (city : List Char)
    (exact_filter : Bool) (c : Candidate) : Bool :=
  let cond1 := pyContains (pyLower c.label_s) (('[' :: city) ++ "]".toList)
  let cond2 := pyContains (clean_and_format_address uni c.address_s) city
  let cond3 := c.address_s.isNone
  let cond4 := pyContains (pyLower c.label_s) ("[system]".toList)
  if exact_filter then cond1 || cond2 || cond4
  else cond1 || cond2 || cond3 || cond4

def filter_by_affil_city (uni : List Char → List Char) (df : DFrame)
    (affil_city : Option (List Char)) (exact_filter : Bool) : DFrame :=
  if df.rows.isEmpty then df
  else
    let city := clean_and_format_address uni affil_city
    if df.hasAddress then
      { df with hasCleanedAddress := true,
                rows := df.rows.filter (city_filter_keeps uni city exact_filter) }
    else
      { rows := [], hasAddress := false, hasCountry := false, hasParentName := false,
        hasParentDocid := false, hasParentValid := false, hasCleanedAddress := false }

/-- Matcher for the final-evaluation regex
`r'\[<w1>.*?<w2>.*? ... <wn>\]'` (query-name words joined by `.*?`), applied
at a fixed position right after a `'['`: the first word must start here, each
later word may be preceded by a gap, and `']'` must immediately follow the
last word.  An empty word list degenerates to `\[\]`. -/
def seqMatch : List (List Char) → List Char → Bool
  | [], s =>
    match s with
    | ']' :: _ => true
    | _ => false
  | [w], s => (w ++ "]".toList).isPrefixOf s
  | w :: ws, s =>
    w.isPrefixOf s && ((s.drop w.length).tails.any (fun t => seqMatch ws t))

/-- `df['label_s'].str.contains(fr'\[{affil_pattern}\]', case=False)` with
`affil_pattern = '.*?'.join(affil_name.split())` (lines 1906-1913): the label
contains, anywhere, a `'['` followed by the query-name words in order (the
first immediately after the bracket, `']'` immediately after the last). -/
def bracket_pattern_contains (affil_name lbl : List Char) : Bool :=
  (pyLower lbl).tails.any (fun t =>
    match t with
    | '[' :: rest => seqMatch (pyWords (pyLower affil_name)) rest
    | _ => false)

/-- The second exclusion regex `fr',?\s*\[{affil_pattern}\]'` (lines
1920-1925): since `,?` and `\s*` both match the empty string, a label contains
this pattern iff it contains the plain bracket pattern, so the same matcher
models it. -/
def bracket_pattern_contains_opt_comma (affil_name lbl : List Char) : Bool :=
  bracket_pattern_contains affil_name lbl

/-- Truthiness of the optional city / country strings (`if affil_city:`,
`if affil_country:`): `None` and `''` are falsy. -/
def optTruthy (o : Option (List Char)) : Bool :=
  match o with
  | none => false
  | some s => ! s.isEmpty

/-- Row filtering on a DataFrame (`df[mask]`). -/
def dfFilter (df : DFrame) (p : Candidate → Bool) : DFrame :=
  { df with rows := df.rows.filter p }

/-- The filter chain run when the exact-match fast path did not return
(lines 1861-1945): parent filter, cap, acronym filter, university-group
filter, prior-publication filter, country and city filters, and the final
evaluation with its two bracket-pattern exclusions. -/
def pick_filter_chain (uni : List Char → List Char) (prevPub : List Char → Bool)
    (affil_country : Option (List Char)) (affil_city : Option (List Char))
    (affil_name : List Char) (parent_affil_id : List (List Char))
    (df1 : DFrame) : Option Candidate :=
  let df2 := filter_by_parent_affil df1 parent_affil_id
  match cap_step df2 affil_name with
  | none => none
  | some df3 =>
    let df4 := filter_by_acronym_pattern df3 affil_name
    let df5 := filter_by_university_group df4
    match filter_by_prev_publications prevPub df5 with
    | some best => some best
    | none =>
      let df6 := if optTruthy affil_country then
          filter_by_country df5 (affil_country.getD []) else df5
      let df7 := filter_by_affil_city uni df6 affil_city false
      if df7.rows.length ≤ 3 ∧ ¬ df7.rows.isEmpty then
        let df8 := if optTruthy affil_city then
            filter_by_affil_city uni df7 affil_city true else df7
        let df9 := if (affil_name.splitOn ' ').length > 1 ∧ ¬ df8.rows.isEmpty then
            dfFilter df8 (fun c => ! bracket_pattern_contains affil_name c.label_s)
          else df8
        let df10 := if (affil_name.splitOn ' ').length > 1 ∧ ¬ df9.rows.isEmpty then
            dfFilter df9 (fun c => ! bracket_pattern_contains_opt_comma affil_name c.label_s)
          else df9
        match df10.rows with
        | [] => none
        | c :: rest =>
          -- Prefer the first row that carries parent metadata.
          if df10.hasParentName then
            match (c :: rest).find? (fun d => d.parentName_s.isSome) with
            | some d => some d
            | none => some c
          else some c
      else none

/-- `SearchAffilFromHal.pick_affiliation_from_search_results`
(lines 1807-1945).  Oracles: `uni` for `unidecode`, `prevPub` for the
prior-publication lookup of `filter_by_prev_publications` (specialised to the
current author).  `numFound` is `search_result[0]`, `docs` is
`search_result[1]`.  Returns `none` for `(False, {})` and `some best` for
`(True, best_affil_dict)`. -/
def pick_affiliation_from_search_results
    (uni : List Char → List Char) (prevPub : List Char → Bool)
    (numFound : Nat) (docs : List Candidate)
    (affil_country : Option (List Char)) (affil_city : Option (List Char))
    (affil_name0 : List Char) (parent_affil_id : List (List Char))
    (invalid_affil : Bool) : Option Candidate :=
  -- Suspected parse error: a very short query yielding too many results.
  if numFound > 40 ∧ (pyWords affil_name0).length ≤ 2 then none
  -- No match found.
  else if numFound = 0 then none
  else
    let affil_name := (prepare_df_affil_found uni docs affil_name0).1
    let df0 := (prepare_df_affil_found uni docs affil_name0).2
    if invalid_affil then
      -- Invalid-affiliation mode: exact label match only.
      match df0.rows.filter (fun c => c.label_s = affil_name) with
      | [] => none
      | c :: _ => some c
    else
      let df_exact := find_exact_match uni df0 affil_name affil_city
      if df_exact.rows.length = 1 then df_exact.rows.head?
      else
        pick_filter_chain uni prevPub affil_country affil_city affil_name
          parent_affil_id
          (if df_exact.rows.length > 1 then df_exact else df0)

/-! ## Accepting a match: `search_hal_and_filter_results` (lines 1289-1410)
and `add_parent_affil_ids` (lines 1152-1182). -/

/-- The loop body of `add_parent_affil_ids`: iterate the parent-id array with
its index into the parallel validity array; on `'VALID'` entries update the
author's `affil_id` field with the parent id, collect it, and look up the
parent's name (`reqHalRef(ref_name='structure', 'docid:<id>', 'label_s')`,
modelled by the oracle `reqName`; `none` covers a zero-hit search).  If the
validity array is shorter than the id array, the `IndexError` is swallowed by
the surrounding `except: pass`, keeping the updates already made. -/
def add_parent_go (reqName : List Char → Option (List Char)) :
    List (List Char) → List (List Char) → List Char →
    List (List Char) → List (List Char) →
    List (List Char) × List (List Char) × List Char
  | [], _, affilId, ids, names => (ids, names, affilId)
  | _ :: _, [], affilId, ids, names => (ids, names, affilId)
  | p :: ps, v :: vs, affilId, ids, names =>
    if v = "VALID".toList then
      let affilId2 := update_affil_id_field affilId p
      let ids2 := ids ++ [p]
      let names2 :=
        match reqName p with
        | some nm => names ++ [nm]
        | none => names
      add_parent_go reqName ps vs affilId2 ids2 names2
    else add_parent_go reqName ps vs affilId ids names

/-- `SearchAffilFromHal.add_parent_affil_ids`: nothing happens unless both
parent columns exist and the row's parent-id entry is an actual array (the
scalar-`NaN` guard); a `NaN` validity array raises at its first use, caught by
the `except`, so nothing happens either.  Returns
`(parent_ids, parent_names, updated affil_id)`. -/
def add_parent_affil_ids (reqName : List Char → Option (List Char))
    (hasParentDocid hasParentValid : Bool) (affilId : List Char)
    (c : Candidate) : List (List Char) × List (List Char) × List Char :=
  if hasParentValid && hasParentDocid then
    match c.parentDocid_i, c.parentValid_s with
    | none, _ => ([], [], affilId)
    | some _, none => ([], [], affilId)
    | some pids, some valids => add_parent_go reqName pids valids affilId [] []
  else ([], [], affilId)

/-- The per-affiliation-unit iteration state of
`search_hal_and_filter_results`: the parent-id accumulator
`parent_affil_id`, the (possibly discovered) country, the author's `affil_id`
field, and `hal_ids_current_affil` / `hal_name_current_affil`. -/
structure UnitState where
  parent_affil_id : List (List Char)
  affil_country : Option (List Char)
  affil_id : List Char
  hal_ids : List (List Char)
  hal_names : List (List Char)
deriving DecidableEq, Repr

/-- The accepted-candidate block of `search_hal_and_filter_results`
(lines 1346-1367): append the candidate's `docid` to `parent_affil_id`, adopt
its country when none is known yet, update the author's `affil_id` with the
`docid` and then with the `VALID` parent ids via `add_parent_affil_ids`, and
extend the per-affiliation id/name lists. -/
def accept_affil_step (reqName : List Char → Option (List Char))
    (hasParentDocid hasParentValid : Bool) (st : UnitState) (c : Candidate) :
    UnitState :=
  let acc := st.parent_affil_id ++ [c.docid]
  let country := if optTruthy st.affil_country then st.affil_country else c.country_s
  let aid := update_affil_id_field st.affil_id c.docid
  let r := add_parent_affil_ids reqName hasParentDocid hasParentValid aid c
  { parent_affil_id := acc,
    affil_country := country,
    affil_id := r.2.2,
    hal_ids := st.hal_ids ++ [c.docid] ++ r.1,
    hal_names := st.hal_names ++ [c.label_s_ori] ++ r.2.1 }

/-- One iteration of the `for affil_unit in reversed(aut_affil_list)` loop of
`search_hal_and_filter_results`: query HAL for the unit (`searchO` models
`reqHalRef` including its punctuation-stripping retry), run the filter
pipeline, and on a match run the accepted-candidate block (the parent-column
flags are those of the DataFrame built from the returned docs). -/
def unit_step (uni : List Char → List Char) (prevPub : List Char → Bool)
    (searchO : List Char → Nat × List Candidate)
    (reqName : List Char → Option (List Char))
    (affil_city : Option (List Char)) (st : UnitState) (affil_unit : List Char) :
    UnitState :=
  let sr := searchO affil_unit
  match pick_affiliation_from_search_results uni prevPub sr.1 sr.2
      st.affil_country affil_city affil_unit st.parent_affil_id false with
  | none => st
  | some c =>
    accept_affil_step reqName
      (sr.2.any (fun d => d.parentDocid_i.isSome))
      (sr.2.any (fun d => d.parentValid_s.isSome)) st c

/-- The whole unit loop, iterating the affiliation-unit list right to left. -/
def search_units_loop (uni : List Char → List Char) (prevPub : List Char → Bool)
    (searchO : List Char → Nat × List Candidate)
    (reqName : List Char → Option (List Char))
    (affil_city : Option (List Char)) (aut_affil_list : List (List Char))
    (st : UnitState) : UnitState :=
  aut_affil_list.reverse.foldl (unit_step uni prevPub searchO reqName affil_city) st

/-! ## The resolution cache
(`search_from_historical_database`, lines 1227-1287;
`update_historical_database`, lines 1195-1224; the per-affiliation dispatch
inside `extract_author_affiliation_in_hal`, lines 1442-1457). -/

/-- One row of `self.affiliation_db`. -/
structure CacheRow where
  affil_name : List Char
  status : List Char
  valid_ids : List Char
  affil_names_valid : List Char
  invalid_ids : List Char
  affil_names_invalid : List Char
  eid : List Char
  author : List Char
  affil_city : List Char
deriving DecidableEq, Repr

/-- The lookup key: raw (pre-preprocessing) affiliation name, document `eid`,
city, and the formatted `'<forename> <surname>'` author name. -/
structure AffilKey where
  affil_name : List Char
  eid : List Char
  affil_city : List Char
  author : List Char
deriving DecidableEq, Repr

/-- The author-record fields written by
`update_auths_fields_affil_from_hal`. -/
structure AuthorRec where
  affil_id : List Char
  affil_id_invalid : List Char
  affil_status : List (List Char)
  affil_not_found_in_hal : List (List Char)
deriving DecidableEq, Repr

/-- The row-selection logic of `search_from_historical_database`: rows with a
case-insensitively equal affiliation name; among those, the author-matching
rows win, else the eid-matching rows, else the city-matching rows; the first
row of the winning set is used. -/
def lookup_historical (db : List CacheRow) (k : AffilKey) : Option CacheRow :=
  let dfResult := db.filter (fun r => pyLower r.affil_name = pyLower k.affil_name)
  let dfEid := dfResult.filter (fun r => r.eid = k.eid)
  let dfCity := dfResult.filter (fun r => r.affil_city = k.affil_city)
  let dfAuth := dfResult.filter (fun r => r.author = k.author)
  let chosen := if dfAuth ≠ [] then dfAuth else if dfEid ≠ [] then dfEid else dfCity
  chosen.head?

/-- The cache-hit update block of `search_from_historical_database`: append
the stored status to `affil_status`, then depending on the status update
`affil_id` with the stored valid ids, `affil_id_invalid` with the stored
invalid ids, or append the raw affiliation name to `affil_not_found_in_hal`. -/
def apply_cache_hit (a : AuthorRec) (affil_name : List Char) (r : CacheRow) :
    AuthorRec :=
  let a1 := { a with affil_status := a.affil_status ++ [r.status] }
  let a2 := if r.status = "In HAL (Valid)".toList then
      { a1 with affil_id := update_affil_id_field a1.affil_id r.valid_ids }
    else a1
  let a3 := if r.status = "In HAL (Not valid)".toList then
      { a2 with affil_id_invalid := update_affil_id_field a2.affil_id_invalid r.invalid_ids }
    else a2
  if r.status = "Not in HAL".toList then
    { a3 with affil_not_found_in_hal := a3.affil_not_found_in_hal ++ [affil_name] }
  else a3

/-- What a full miss-path search (`search_hal_and_filter_results`) leaves
behind for `update_historical_database`: the updated author record and the
joined `hal_ids_current_affil` / `hal_name_current_affil` strings.  It is a
parameter here: the cache claims do not depend on its internals. -/
structure SearchOutcome where
  auth : AuthorRec
  valid_ids : List Char
  affil_names_valid : List Char
  invalid_ids : List Char
  affil_names_invalid : List Char
deriving Repr

/-- One per-affiliation dispatch of `extract_author_affiliation_in_hal`: on a
cache hit, update the author record from the stored row and leave the cache
alone (`continue`); on a miss run the search and let
`update_historical_database` append one row built from the iteration key and
the search outcome (guarded by `len(auth['affil_status']) > 0`, with
`status = auth['affil_status'][affil_idx]`). -/
def resolve_affiliation (searchFn : AuthorRec → SearchOutcome)
    (db : List CacheRow) (a : AuthorRec) (k : AffilKey) (affil_idx : Nat) :
    AuthorRec × List CacheRow :=
  match lookup_historical db k with
  | some r => (apply_cache_hit a k.affil_name r, db)
  | none =>
    let out := searchFn a
    if out.auth.affil_status.length > 0 then
      let row : CacheRow :=
        { affil_name := k.affil_name,
          status := out.auth.affil_status.getD affil_idx [],
          valid_ids := out.valid_ids,
          affil_names_valid := out.affil_names_valid,
          invalid_ids := out.invalid_ids,
          affil_names_invalid := out.affil_names_invalid,
          eid := k.eid,
          author := k.author,
          affil_city := k.affil_city }
      (out.auth, db ++ [row])
    else (out.auth, db)

/-! ## Concrete inputs used by the counterexamples and witnesses. -/

/-- A department whose parent pointer names the university below. -/
def deptCand : Candidate :=
  { docid := "D1".toList, label_s := "dept".toList, label_s_ori := "dept".toList,
    address_s := none, country_s := none, parentName_s := none,
    parentDocid_i := some ["U1".toList], parentValid_s := some ["VALID".toList] }

/-- The university pointed to by `deptCand`. -/
def univCand : Candidate := mkCand "U1".toList "univ".toList

/-- A surviving candidate set holding both the department and its parent
university (the parent columns are present). -/
def dfScenarioD : DFrame :=
  { rows := [deptCand, univCand], hasAddress := false, hasCountry := false,
    hasParentName := false, hasParentDocid := true, hasParentValid := true,
    hasCleanedAddress := false }

/-- A candidate (docid `1`) whose parent (docid `2`) is flagged `VALID`. -/
def candWithParent : Candidate :=
  { docid := "1".toList, label_s := "lab".toList, label_s_ori := "lab".toList,
    address_s := none, country_s := none, parentName_s := none,
    parentDocid_i := some ["2".toList], parentValid_s := some ["VALID".toList] }

/-- The initial per-unit iteration state of `search_hal_and_filter_results`. -/
def st0 : UnitState :=
  { parent_affil_id := [], affil_country := none, affil_id := [],
    hal_ids := [], hal_names := [] }

/-- 31 candidates: one labelled `x` plus thirty labelled `y0` … `y29`. -/
def docs31 : List Candidate :=
  mkCand "dx".toList "x".toList ::
    (List.range 30).map (fun i =>
      mkCand ('d' :: Nat.toDigits 10 i) ('y' :: Nat.toDigits 10 i))

/-- The 31 candidates as a bare DataFrame (no optional columns). -/
def df31 : DFrame :=
  { rows := docs31, hasAddress := false, hasCountry := false,
    hasParentName := false, hasParentDocid := false, hasParentValid := false,
    hasCleanedAddress := false }

/-- A candidate without an address, in a frame where no candidate has one
(hence no `address_s` column). -/
def noAddrCand : Candidate := mkCand "n1".toList "inst".toList

def dfNoAddrCol : DFrame :=
  { rows := [noAddrCand], hasAddress := false, hasCountry := false,
    hasParentName := false, hasParentDocid := false, hasParentValid := false,
    hasCleanedAddress := false }

/-- A candidate whose label carries `[system]` but whose address does not
contain the query city. -/
def sysCand : Candidate :=
  { docid := "s1".toList, label_s := "lab [system]".toList,
    label_s_ori := "lab [system]".toList, address_s := some ("lyon".toList),
    country_s := none, parentName_s := none, parentDocid_i := none,
    parentValid_s := none }

def dfSys : DFrame :=
  { rows := [sysCand], hasAddress := true, hasCountry := false,
    hasParentName := false, hasParentDocid := false, hasParentValid := false,
    hasCleanedAddress := false }

/-- Concrete cache key for the C7 witness. -/
def key1 : AffilKey :=
  { affil_name := "lab x".toList, eid := "e1".toList,
    affil_city := "paris".toList, author := "a b".toList }

/-- The cache row the first (miss) resolution of `key1` appends. -/
def row1 : CacheRow :=
  { affil_name := "lab x".toList, status := "Not in HAL".toList,
    valid_ids := [], affil_names_valid := [], invalid_ids := [],
    affil_names_invalid := [], eid := "e1".toList, author := "a b".toList,
    affil_city := "paris".toList }

/-- An author record with no resolved affiliations yet. -/
def authEmpty : AuthorRec :=
  { affil_id := [], affil_id_invalid := [], affil_status := [],
    affil_not_found_in_hal := [] }

/-- A search function recording a `Not in HAL` outcome. -/
def searchNotFound : AuthorRec → SearchOutcome := fun a =>
  { auth := { a with affil_status := a.affil_status ++ ["Not in HAL".toList] },
    valid_ids := [], affil_names_valid := [], invalid_ids := [],
    affil_names_invalid := [] }

/-- A search function that leaves the author unchanged (used to show the
second resolution ignores the search function entirely). -/
def searchInert : AuthorRec → SearchOutcome := fun a =>
  { auth := a, valid_ids := [], affil_names_valid := [], invalid_ids := [],
    affil_names_invalid := [] }

theorem pySplit_ne_nil (s : List Char) : pySplit s ≠ [] := by
  induction s using pySplit.induct with
  | case1 => simp [pySplit]
  | case2 c => simp [pySplit]
  | case3 c d rest h ih => simp [pySplit, h]
  | case4 c d rest h hnil ih => exact absurd hnil ih
  | case5 c d rest h t ts hs ih => simp [pySplit, if_neg h, hs]

/-- Splitting a string extended by `', ' ++ b` splits both parts. -/
theorem pySplit_append (a b : List Char) :
    pySplit (a ++ (',' :: ' ' :: b)) = pySplit a ++ pySplit b := by
  induction a using pySplit.induct with
  | case1 => simp [pySplit]
  | case2 c =>
    have hns : ¬(c = ',' ∧ ',' = ' ') := by simp
    simp [pySplit, hns]
  | case3 c d rest h ih =>
    simp only [List.cons_append, pySplit, if_pos h]
    exact congrArg (List.cons []) ih
  | case4 c d rest h hnil ih => exact absurd hnil (pySplit_ne_nil _)
  | case5 c d rest h t ts hs ih =>
    rw [List.cons_append] at ih
    simp only [List.cons_append, pySplit, if_neg h, List.append_eq]
    rw [ih, hs]
    simp

theorem mem_pySplit_update_self {e v : List Char} (hv : singleToken v) :
    v ∈ pySplit (update_affil_id_field e v) := by
  unfold update_affil_id_field
  split
  · rw [hv]; exact List.mem_singleton.mpr rfl
  · split
    · assumption
    · rw [pySplit_append, hv]
      simp

theorem mem_pySplit_update_mono {e v w : List Char} (hw : w ∈ pySplit e) (hne : w ≠ []) :
    w ∈ pySplit (update_affil_id_field e v) := by
  unfold update_affil_id_field
  split
  · rename_i he
    subst he
    simp [pySplit] at hw
    exact absurd hw hne
  · split
    · exact hw
    · rw [pySplit_append]
      exact List.mem_append_left _ hw

theorem nodup_pySplit_update {e v : List Char} (hv : singleToken v)
    (he : (pySplit e).Nodup) : (pySplit (update_affil_id_field e v)).Nodup := by
  unfold update_affil_id_field
  split
  · rw [hv]; simp
  · split
    · exact he
    · rename_i hnm
      rw [pySplit_append, hv]
      simp only [List.nodup_append, List.nodup_cons, List.nodup_nil, and_true,
        List.not_mem_nil, not_false_iff, List.Disjoint]
      refine ⟨he, by simp, ?_⟩
      intro x hx hx'
      simp only [List.mem_singleton] at hx'
      subst hx'
      exact hnm hx

theorem nodup_pySplit_foldl (vs : List (List Char))
    (htok : ∀ v ∈ vs, singleToken v) :
    ∀ e, (pySplit e).Nodup → (pySplit (vs.foldl update_affil_id_field e)).Nodup := by
  induction vs with
  | nil => intro e he; exact he
  | cons v vs' ih =>
    intro e he
    simp only [List.foldl_cons]
    exact ih (fun w hw => htok w (List.mem_cons_of_mem _ hw))
      _ (nodup_pySplit_update (htok v (List.mem_cons_self _ _)) he)

/-- C9: The author's `affil_id` field is duplicate-free under the updates made
by `update_auths_fields_affil_from_hal`: updating with an identifier already
present among the `', '`-separated entries leaves the field unchanged, and any
sequence of single-identifier updates starting from the empty field yields a
field whose `', '`-split entry list has no duplicates. -/
theorem affil_id_field_nodup :
    (∀ e v : List Char, v ∈ pySplit e → update_affil_id_field e v = e) ∧
    (∀ vs : List (List Char), (∀ v ∈ vs, singleToken v) →
      (pySplit (vs.foldl update_affil_id_field [])).Nodup) := by
  constructor
  · intro e v hv
    unfold update_affil_id_field
    by_cases he : e = []
    · subst he
      simp [pySplit] at hv
      simp [hv]
    · rw [if_neg he, if_pos hv]
  · intro vs htok
    exact nodup_pySplit_foldl vs htok [] (by simp [pySplit])

/-- Witness for C9 at concrete inputs. -/
theorem affil_id_field_nodup_witness :
    update_affil_id_field ("12, 34".toList) ("34".toList) = "12, 34".toList ∧
    (pySplit ([("12".toList), ("34".toList), ("12".toList)].foldl
      update_affil_id_field [])).Nodup := by
  refine ⟨affil_id_field_nodup.1 _ _ (by decide), affil_id_field_nodup.2 _ ?_⟩
  intro v hv
  simp only [List.mem_cons, List.not_mem_nil, or_false] at hv
  rcases hv with h | h | h <;> subst h <;> decide

/-- C10 counterexample: a run in which no response ever parses does not loop
forever — with the first response unparseable and `requests.get` raising on a
`Response` argument (it is not a URL), the loop has already terminated with an
uncaught exception by fuel 5, never re-issuing the HTTP request and never
returning a parsed pair. -/
theorem reqHal_raises_instead_of_retrying :
    reqHal_loop getRaisesOnResponse (ReqArg.url ("q".toList)) 5
      = ReqHalOutcome.exn := by
  decide

/-- C10 amended: `reqHal` issues the HTTP request only once.  If the first
response parses as JSON, the parsed `(numFound, docs)` pair is returned.  If
it does not parse, the loop rebinds `req = requests.get(req)`, so every later
iteration consults `requests.get` on the previous `Response` object and never
on the URL again; since `requests.get` raises on a non-URL argument — and that
call sits outside the `try` — the function then terminates with an uncaught
exception at the second iteration instead of retrying. -/
theorem reqHal_single_request (get : ReqArg → Option HalResponse)
    (u : List Char) (resp : HalResponse)
    (hget : get (ReqArg.url u) = some resp) :
    (∀ v, resp = some v → ∀ fuel, 1 ≤ fuel →
      reqHal_loop get (ReqArg.url u) fuel = ReqHalOutcome.ok v) ∧
    (resp = none → ∀ fuel,
      reqHal_loop get (ReqArg.url u) (fuel + 2) =
        reqHal_loop get (ReqArg.response none) (fuel + 1)) ∧
    (resp = none → (∀ r, get (ReqArg.response r) = none) → ∀ fuel, 2 ≤ fuel →
      reqHal_loop get (ReqArg.url u) fuel = ReqHalOutcome.exn) := by
  refine ⟨?_, ?_, ?_⟩
  · intro v hv fuel hf
    obtain ⟨f, rfl⟩ : ∃ f, fuel = f + 1 := ⟨fuel - 1, by omega⟩
    subst hv
    simp [reqHal_loop, hget]
  · intro hr fuel
    subst hr
    simp [reqHal_loop, hget]
  · intro hr hraise fuel hf
    obtain ⟨f, rfl⟩ : ∃ f, fuel = f + 2 := ⟨fuel - 2, by omega⟩
    subst hr
    simp [reqHal_loop, hget, hraise]

/-- Witness for the C10 amended theorem: the first response parses and its
pair is returned. -/
theorem reqHal_single_request_witness :
    reqHal_loop getParsesFirst (ReqArg.url ("q".toList)) 3
      = ReqHalOutcome.ok (7, []) :=
  (reqHal_single_request getParsesFirst ("q".toList) (some (7, [])) rfl).1
    (7, []) rfl 3 (by omega)

/-- C1 counterexample: on the Scenario-D candidate set the university-group
filter keeps the university and drops the department — the opposite of the
claimed behaviour (drop the parent, keep the child). -/
theorem filter_by_university_group_keeps_parent_at_scenarioD :
    (filter_by_university_group dfScenarioD).rows = [univCand] ∧
    deptCand ∉ (filter_by_university_group dfScenarioD).rows := by
  constructor
  · decide
  · decide

/-- C1 amended: whenever the surviving candidate set contains two distinct
candidates `C` and `P` with `P`'s identifier occurring in `C`'s
parent-identifier list, the university-group filter drops `C` (the child); and
`P` is kept whenever `P` itself carries no parent metadata.  In particular,
with a department pointing at a university, the filter removes the department
and keeps the university. -/
theorem filter_by_university_group_drops_child
    (df : DFrame) (C P : Candidate) (j : Nat) (pids : List (List Char))
    (hcol : df.hasParentDocid = true)
    (hj : df.rows[j]? = some P)
    (hCpar : C.parentDocid_i = some pids)
    (hmem : P.docid ∈ pids)
    (hne : C ≠ P)
    (hPpar : P.parentDocid_i = none) :
    C ∉ (filter_by_university_group df).rows ∧
    P ∈ (filter_by_university_group df).rows := by
  have hnonempty : ¬ df.rows.isEmpty = true := by
    cases hrows : df.rows with
    | nil => rw [hrows] at hj; simp at hj
    | cons x xs => simp [hrows]
  have hjP : (j, P) ∈ df.rows.enum := List.mem_enum_iff_getElem?.mpr hj
  constructor
  · intro hC
    simp only [filter_by_university_group] at hC
    rw [if_neg hnonempty] at hC
    simp only [List.mem_map, List.mem_filter] at hC
    obtain ⟨a, ⟨hkC, hpred⟩, hsnd⟩ := hC
    have hkget : df.rows[a.1]? = some C := hsnd ▸ List.mem_enum_iff_getElem?.mp hkC
    have hkj : a.1 ≠ j := by
      intro hkj
      rw [hkj, hj] at hkget
      exact hne (Option.some.inj hkget).symm
    have hpids_ne : pids.isEmpty = false := by
      cases pids with
      | nil => simp at hmem
      | cons x xs => rfl
    rw [show a.2 = C from hsnd] at hpred
    simp only [not_child, hcol, hCpar, hpids_ne, if_true, Bool.false_eq_true,
      if_false, List.all_eq_true] at hpred
    have hspec := hpred (j, P) hjP
    simp only [Bool.or_eq_true, decide_eq_true_eq] at hspec
    rcases hspec with h | h
    · exact hkj h.symm
    · simp at h
      exact h hmem
  · simp only [filter_by_university_group]
    rw [if_neg hnonempty]
    simp only [List.mem_map, List.mem_filter]
    refine ⟨(j, P), ⟨hjP, ?_⟩, rfl⟩
    simp [not_child, hcol, hPpar]

/-- Witness for the C1 amended theorem at the Scenario-D input. -/
theorem filter_by_university_group_drops_child_witness :
    deptCand ∉ (filter_by_university_group dfScenarioD).rows ∧
    univCand ∈ (filter_by_university_group dfScenarioD).rows :=
  filter_by_university_group_drops_child dfScenarioD deptCand univCand 1
    ["U1".toList] rfl (by decide) rfl (by decide) (by decide) rfl

/-- C2 counterexample: accepting a candidate whose parent id `2` is `VALID`
puts `2` into the author's `affil_id` but not into the `parent_affil_id`
accumulator, which receives only the candidate's own docid `1` — contradicting
the claim that `VALID` parent ids are added to the accumulator as well. -/
theorem accepted_parent_id_missing_from_accumulator :
    (accept_affil_step (fun _ => none) true true st0 candWithParent).parent_affil_id
      = ["1".toList] ∧
    "2".toList ∉
      (accept_affil_step (fun _ => none) true true st0 candWithParent).parent_affil_id ∧
    "2".toList ∈
      pySplit (accept_affil_step (fun _ => none) true true st0 candWithParent).affil_id := by
  refine ⟨by decide, by decide, by decide⟩

theorem mem_pySplit_add_parent_go (reqName : List Char → Option (List Char)) :
    ∀ (pids vs : List (List Char)) (affilId : List Char)
      (ids names : List (List Char)) (w : List Char),
      w ∈ pySplit affilId → w ≠ [] →
      w ∈ pySplit (add_parent_go reqName pids vs affilId ids names).2.2 := by
  intro pids
  induction pids with
  | nil => intro vs affilId ids names w hw _; cases vs <;> exact hw
  | cons p ps ih =>
    intro vs affilId ids names w hw hne
    cases vs with
    | nil => exact hw
    | cons v vs' =>
      simp only [add_parent_go]
      split
      · exact ih _ _ _ _ w (mem_pySplit_update_mono hw hne) hne
      · exact ih _ _ _ _ w hw hne

theorem valid_parent_mem_add_parent_go (reqName : List Char → Option (List Char)) :
    ∀ (pids vs : List (List Char)) (affilId : List Char)
      (ids names : List (List Char)) (i : Nat) (hi : i < pids.length)
      (hvi : i < vs.length),
      (∀ p ∈ pids, singleToken p ∧ p ≠ []) →
      vs.get ⟨i, hvi⟩ = "VALID".toList →
      pids.get ⟨i, hi⟩ ∈ pySplit (add_parent_go reqName pids vs affilId ids names).2.2 := by
  intro pids
  induction pids with
  | nil =>
    intro vs affilId ids names i hi
    exact absurd hi (by simp)
  | cons p ps ih =>
    intro vs affilId ids names i hi hvi htok hval
    cases vs with
    | nil => simp at hvi
    | cons v vs' =>
      cases i with
      | zero =>
        simp only [List.get] at hval
        simp only [List.get]
        simp only [add_parent_go, if_pos hval]
        have hp := htok p (List.mem_cons_self _ _)
        exact mem_pySplit_add_parent_go reqName ps vs' _ _ _ p
          (mem_pySplit_update_self hp.1) hp.2
      | succ n =>
        simp only [List.get]
        simp only [add_parent_go]
        split
        · exact ih vs' _ _ _ n (by simpa using hi) (by simpa using hvi)
            (fun q hq => htok q (List.mem_cons_of_mem _ hq)) (by simpa using hval)
        · exact ih vs' _ _ _ n (by simpa using hi) (by simpa using hvi)
            (fun q hq => htok q (List.mem_cons_of_mem _ hq)) (by simpa using hval)

/-- C2 amended: when the pipeline accepts a candidate, the accumulator used by
the parent-affiliation filter receives exactly the candidate's own `docid`
(appended to the previous accumulator) — the parent ids are not added to it —
while every parent id whose parallel validity flag is `'VALID'` is added to
the author's `affil_id` field. -/
theorem accept_affil_step_parent_propagation
    (reqName : List Char → Option (List Char)) (st : UnitState) (c : Candidate)
    (pids vs : List (List Char))
    (hd : c.parentDocid_i = some pids) (hv : c.parentValid_s = some vs)
    (htok : ∀ p ∈ pids, singleToken p ∧ p ≠ []) :
    (accept_affil_step reqName true true st c).parent_affil_id
      = st.parent_affil_id ++ [c.docid] ∧
    (∀ (i : Nat) (hi : i < pids.length) (hvi : i < vs.length),
      vs.get ⟨i, hvi⟩ = "VALID".toList →
      pids.get ⟨i, hi⟩ ∈ pySplit (accept_affil_step reqName true true st c).affil_id) := by
  constructor
  · rfl
  · intro i hi hvi hval
    show pids.get ⟨i, hi⟩ ∈ pySplit
      (add_parent_affil_ids reqName true true
        (update_affil_id_field st.affil_id c.docid) c).2.2
    simp only [add_parent_affil_ids, hd, hv, Bool.and_self, if_true]
    exact valid_parent_mem_add_parent_go reqName pids vs _ [] [] i hi hvi htok hval

/-- Witness for the C2 amended theorem at the concrete candidate. -/
theorem accept_affil_step_parent_propagation_witness :
    (accept_affil_step (fun _ => none) true true st0 candWithParent).parent_affil_id
      = [] ++ ["1".toList] ∧
    "2".toList ∈
      pySplit (accept_affil_step (fun _ => none) true true st0 candWithParent).affil_id := by
  have h := accept_affil_step_parent_propagation (fun _ => none) st0 candWithParent
    ["2".toList] ["VALID".toList] rfl rfl
    (by intro p hp; simp only [List.mem_singleton] at hp; subst hp; exact ⟨by decide, by decide⟩)
  exact ⟨h.1, h.2 0 (by decide) (by decide) (by decide)⟩

/-- C3 counterexample: with 31 surviving candidates the cap step truncates for
a 3-word (specific) query name and returns not-found for a 1-word name —
exactly the opposite of the claimed branches. -/
theorem cap_step_branches_swapped :
    cap_step df31 ("a b c".toList) = some { df31 with rows := df31.rows.take 30 } ∧
    cap_step df31 ("x".toList) = none := by
  constructor
  · decide
  · decide

/-- C3 amended: in the cap step, when more than 30 candidates survive the
parent-affiliation filter, a query name of more than 2 words keeps the first
30 rows (of the word-count-sorted candidate list) and filtering continues,
while a name of at most 2 words yields not-found. -/
theorem cap_step_amended (df : DFrame) (affil_name : List Char)
    (h : 30 < df.rows.length) :
    (2 < (pyWords affil_name).length →
      cap_step df affil_name = some { df with rows := df.rows.take 30 }) ∧
    ((pyWords affil_name).length ≤ 2 → cap_step df affil_name = none) := by
  constructor
  · intro hw
    simp only [cap_step, if_pos h, if_pos hw]
  · intro hw
    have hnw : ¬ (pyWords affil_name).length > 2 := by omega
    simp only [cap_step]
    rw [if_pos h, if_neg hnw]

/-- Witness for the C3 amended theorem at the 31-row frame. -/
theorem cap_step_amended_witness :
    cap_step df31 ("a b c".toList) = some { df31 with rows := df31.rows.take 30 } :=
  (cap_step_amended df31 ("a b c".toList) (by decide)).1 (by decide)

set_option maxHeartbeats 2000000 in
/-- C4 counterexample: a pipeline invocation with 31 candidates (over the cap
of 30) and the 1-word query name `x` returns the single exact-match candidate
rather than NotFound: the exact-match fast path runs before the cap step. -/
theorem pick_over_cap_returns_exact_match :
    pick_affiliation_from_search_results id (fun _ => false) 31 docs31
      none none ("x".toList) [] false = some (mkCand "dx".toList "x".toList) := by
  decide

/-- C4 amended: a pipeline invocation whose raw candidate count exceeds 40 and
whose query name has at most 2 words yields NotFound unconditionally — for any
documents, country, city, accumulator, mode and oracles; between 31 and 40
candidates an exact match can still be returned (see the counterexample). -/
theorem pick_notfound_over_40 (uni : List Char → List Char)
    (prevPub : List Char → Bool) (numFound : Nat) (docs : List Candidate)
    (affil_country affil_city : Option (List Char)) (affil_name0 : List Char)
    (parent_affil_id : List (List Char)) (invalid_affil : Bool)
    (h1 : 40 < numFound) (h2 : (pyWords affil_name0).length ≤ 2) :
    pick_affiliation_from_search_results uni prevPub numFound docs
      affil_country affil_city affil_name0 parent_affil_id invalid_affil = none := by
  unfold pick_affiliation_from_search_results
  rw [if_pos ⟨h1, h2⟩]

/-- Witness for the C4 amended theorem: 50 results for a 1-word name. -/
theorem pick_notfound_over_40_witness :
    pick_affiliation_from_search_results id (fun _ => false) 50
      [mkCand "d".toList "x".toList] none none ("x".toList) [] false = none :=
  pick_notfound_over_40 id (fun _ => false) 50 [mkCand "d".toList "x".toList]
    none none ("x".toList) [] false (by decide) (by decide)

/-- C5: when the large-result guard does not fire and the search reported a
nonzero count, if exactly one candidate of the prepared DataFrame passes
`find_exact_match` (label equal to the normalized query name, or equal to
`'<name> [<city>]'`), the pipeline returns that candidate immediately — for
every country, city, accumulator and prior-publication oracle. -/
theorem pick_exact_match_fast_path (uni : List Char → List Char)
    (prevPub : List Char → Bool) (numFound : Nat) (docs : List Candidate)
    (affil_country affil_city : Option (List Char)) (affil_name0 : List Char)
    (parent_affil_id : List (List Char)) (c : Candidate)
    (hguard : ¬ (numFound > 40 ∧ (pyWords affil_name0).length ≤ 2))
    (hnz : ¬ numFound = 0)
    (hexact : (find_exact_match uni (prepare_df_affil_found uni docs affil_name0).2
        (prepare_df_affil_found uni docs affil_name0).1 affil_city).rows = [c]) :
    pick_affiliation_from_search_results uni prevPub numFound docs
      affil_country affil_city affil_name0 parent_affil_id false = some c := by
  unfold pick_affiliation_from_search_results
  rw [if_neg hguard, if_neg hnz]
  simp only [Bool.false_eq_true, if_false, hexact]
  rfl

/-- Witness for C5: a single exact-match candidate is returned. -/
theorem pick_exact_match_fast_path_witness :
    pick_affiliation_from_search_results id (fun _ => false) 1
      [mkCand "d1".toList "abc".toList] none none ("abc".toList) [] false
      = some (mkCand "d1".toList "abc".toList) :=
  pick_exact_match_fast_path id (fun _ => false) 1 [mkCand "d1".toList "abc".toList]
    none none ("abc".toList) [] (mkCand "d1".toList "abc".toList)
    (by decide) (by decide) (by decide)

/-- C6 counterexample: (a) a candidate with no address at all (the whole
`address_s` column is absent) does not survive the city filter — the filter
returns the empty frame; (b) a candidate whose label carries `[system]`
survives even though its address does not contain the city, its label does not
contain `[<city>]`, and it does have an address. -/
theorem filter_by_affil_city_flaws :
    (filter_by_affil_city id dfNoAddrCol (some ("paris".toList)) false).rows = [] ∧
    (filter_by_affil_city id dfSys (some ("paris".toList)) false).rows = [sysCand] := by
  constructor
  · decide
  · decide

theorem city_filter_keeps_false_iff (uni : List Char → List Char)
    (city : List Char) (c : Candidate) :
    city_filter_keeps uni city false c = true ↔
    (pyContains (pyLower c.label_s) (('[' :: city) ++ "]".toList) = true ∨
     pyContains (clean_and_format_address uni c.address_s) city = true ∨
     c.address_s = none ∨
     pyContains (pyLower c.label_s) ("[system]".toList) = true) := by
  unfold city_filter_keeps
  simp [Option.isNone_iff_eq_none]
  tauto

/-- C6 amended: when the `address_s` column exists, the (non-exact) city
filter keeps exactly the candidates whose lowered label contains
`[<cleaned city>]`, or whose cleaned address contains the cleaned city, or
whose own address entry is `NaN`, or whose lowered label contains `[system]`;
when no candidate has an address field, every candidate is dropped. -/
theorem filter_by_affil_city_characterization (uni : List Char → List Char)
    (df : DFrame) (affil_city : Option (List Char)) :
    (df.hasAddress = true → ∀ c : Candidate,
      (c ∈ (filter_by_affil_city uni df affil_city false).rows ↔
        c ∈ df.rows ∧
          (pyContains (pyLower c.label_s)
              (('[' :: clean_and_format_address uni affil_city) ++ "]".toList) = true ∨
           pyContains (clean_and_format_address uni c.address_s)
              (clean_and_format_address uni affil_city) = true ∨
           c.address_s = none ∨
           pyContains (pyLower c.label_s) ("[system]".toList) = true))) ∧
    (df.hasAddress = false → df.rows ≠ [] →
      (filter_by_affil_city uni df affil_city false).rows = []) := by
  constructor
  · intro hcol c
    unfold filter_by_affil_city
    by_cases hrows : df.rows.isEmpty
    · rw [if_pos hrows]
      have : df.rows = [] := List.isEmpty_iff.mp hrows
      rw [this]
      simp
    · rw [if_neg hrows, if_pos hcol]
      simp only [List.mem_filter]
      rw [city_filter_keeps_false_iff]
  · intro hcol hrows
    unfold filter_by_affil_city
    rw [if_neg (by simpa using hrows), hcol]
    simp

/-- Witness for the C6 amended theorem: the `[system]` candidate is kept via
the fourth disjunct, at a concrete frame with the address column present. -/
theorem filter_by_affil_city_characterization_witness :
    sysCand ∈ (filter_by_affil_city id dfSys (some ("paris".toList)) false).rows :=
  ((filter_by_affil_city_characterization id dfSys (some ("paris".toList))).1
    rfl sysCand).mpr (by decide)

theorem lookup_historical_append_self (db : List CacheRow) (k : AffilKey)
    (r : CacheRow)
    (hmiss : lookup_historical db k = none)
    (hname : pyLower r.affil_name = pyLower k.affil_name)
    (heid : r.eid = k.eid) (hcity : r.affil_city = k.affil_city)
    (hauth : r.author = k.author) :
    lookup_historical (db ++ [r]) k = some r := by
  have hauthEmpty :
      (db.filter (fun q => pyLower q.affil_name = pyLower k.affil_name)).filter
        (fun q => q.author = k.author) = [] := by
    by_contra h
    simp only [lookup_historical] at hmiss
    rw [if_pos h] at hmiss
    exact h (by simpa using hmiss)
  simp [lookup_historical, List.filter_append, hauthEmpty, hname, hauth]

theorem apply_cache_hit_status (a : AuthorRec) (nm : List Char) (r : CacheRow) :
    (apply_cache_hit a nm r).affil_status = a.affil_status ++ [r.status] := by
  unfold apply_cache_hit
  split
  · split <;> split <;> rfl
  · split <;> split <;> rfl

/-- C7: resolving the same `(author, affiliation name, city, document)` key a
second time is answered from the cache: if the first resolution was a cache
miss that appended row `r`, the second resolution finds exactly `r`, copies
its status (and through `apply_cache_hit` its identifiers) into the author
record, leaves the cache contents unchanged, and does not depend on the
search function at all (no external query is made). -/
theorem resolve_affiliation_idempotent
    (searchFn searchFn2 searchFn3 : AuthorRec → SearchOutcome)
    (db : List CacheRow) (a1 a2 : AuthorRec) (k : AffilKey) (idx : Nat)
    (a1' : AuthorRec) (r : CacheRow)
    (hmiss : lookup_historical db k = none)
    (hfirst : resolve_affiliation searchFn db a1 k idx = (a1', db ++ [r])) :
    resolve_affiliation searchFn2 (db ++ [r]) a2 k idx =
      (apply_cache_hit a2 k.affil_name r, db ++ [r]) ∧
    resolve_affiliation searchFn2 (db ++ [r]) a2 k idx =
      resolve_affiliation searchFn3 (db ++ [r]) a2 k idx ∧
    (resolve_affiliation searchFn2 (db ++ [r]) a2 k idx).1.affil_status =
      a2.affil_status ++ [r.status] := by
  have hrkey : pyLower r.affil_name = pyLower k.affil_name ∧ r.eid = k.eid ∧
      r.affil_city = k.affil_city ∧ r.author = k.author := by
    unfold resolve_affiliation at hfirst
    rw [hmiss] at hfirst
    simp only [] at hfirst
    by_cases hguard : (searchFn a1).auth.affil_status.length > 0
    · rw [if_pos hguard] at hfirst
      have hrow := congrArg Prod.snd hfirst
      simp only at hrow
      have hr' := List.append_cancel_left hrow
      injection hr' with hr2 hr3
      refine ⟨?_, ?_, ?_, ?_⟩ <;> rw [← hr2]
    · rw [if_neg hguard] at hfirst
      have hdb := congrArg Prod.snd hfirst
      simp only at hdb
      have hlen := congrArg List.length hdb
      simp at hlen
  have hlook := lookup_historical_append_self db k r hmiss
    hrkey.1 hrkey.2.1 hrkey.2.2.1 hrkey.2.2.2
  refine ⟨?_, ?_, ?_⟩
  · unfold resolve_affiliation
    rw [hlook]
  · unfold resolve_affiliation
    rw [hlook]
  · unfold resolve_affiliation
    rw [hlook]
    exact apply_cache_hit_status a2 k.affil_name r

/-- Witness for C7: after a first miss resolution of `key1` appended `row1`,
a second resolution of the same key is answered from the cache. -/
theorem resolve_affiliation_idempotent_witness :
    resolve_affiliation searchInert ([] ++ [row1]) authEmpty key1 0 =
      (apply_cache_hit authEmpty key1.affil_name row1, [] ++ [row1]) :=
  (resolve_affiliation_idempotent searchNotFound searchInert searchInert
    [] authEmpty authEmpty key1 0
    { affil_id := [], affil_id_invalid := [],
      affil_status := ["Not in HAL".toList], affil_not_found_in_hal := [] }
    row1 (by decide) (by decide)).1

/-- The step lemma for C8: one unit iteration only appends to the
parent-identifier accumulator. -/
theorem unit_step_acc_monotone (uni : List Char → List Char)
    (prevPub : List Char → Bool) (searchO : List Char → Nat × List Candidate)
    (reqName : List Char → Option (List Char)) (affil_city : Option (List Char))
    (st : UnitState) (u : List Char) :
    st.parent_affil_id <+:
      (unit_step uni prevPub searchO reqName affil_city st u).parent_affil_id := by
  have hstep : unit_step uni prevPub searchO reqName affil_city st u =
      match pick_affiliation_from_search_results uni prevPub (searchO u).1
          (searchO u).2 st.affil_country affil_city u st.parent_affil_id false with
      | none => st
      | some c =>
        accept_affil_step reqName ((searchO u).2.any (fun d => d.parentDocid_i.isSome))
          ((searchO u).2.any (fun d => d.parentValid_s.isSome)) st c := rfl
  rw [hstep]
  cases hpick : pick_affiliation_from_search_results uni prevPub
      (searchO u).1 (searchO u).2 st.affil_country affil_city u
      st.parent_affil_id false with
  | none => exact List.prefix_rfl
  | some c => exact ⟨[c.docid], rfl⟩

/-- C8: across the unit loop of one author-affiliation resolution, the
parent-identifier accumulator is monotonically non-decreasing: the value
before any sequence of unit iterations is a prefix of the value after, so
identifiers are only appended, never removed or replaced. -/
theorem search_units_loop_acc_monotone (uni : List Char → List Char)
    (prevPub : List Char → Bool) (searchO : List Char → Nat × List Candidate)
    (reqName : List Char → Option (List Char)) (affil_city : Option (List Char))
    (aut_affil_list : List (List Char)) (st : UnitState) :
    st.parent_affil_id <+:
      (search_units_loop uni prevPub searchO reqName affil_city
        aut_affil_list st).parent_affil_id := by
  unfold search_units_loop
  generalize aut_affil_list.reverse = l
  induction l generalizing st with
  | nil => exact List.prefix_rfl
  | cons u us ih =>
    simp only [List.foldl_cons]
    exact (unit_step_acc_monotone uni prevPub searchO reqName affil_city st u).trans
      (ih _)
